import Mathlib

/-!
Verification of the create-with-uniqueness-guard workflow and the read paths of
the pelodata-serverless handlers (Go sources under `services/` plus the older
revisions of the same handlers found elsewhere in the repository).

The Go code is shallowly embedded: DynamoDB is a list of attribute records, a
scan with a filter expression is a `List.filter`, `GetItem` is a `List.find?`,
and the HTTP response envelope is a `Response` structure whose body is a small
inductive (a serialized record is represented by the record itself — Go's
`json.Marshal` of a struct is injective).  Machine integers are `Int`, Go
`float32` fields are `Rat`, and the string/number conversions the handlers
perform (`strconv.Itoa` / `strconv.Atoi`) are implemented on `String`
character lists.  `json.Marshal`/`json.Unmarshal` of the nested workout
schedule is embedded as an executable token encoder/decoder with a proved
round trip, mirroring "serialized to an opaque byte payload before storage and
deserialized symmetrically on read".
-/

/-! ## Decimal integer serialization: `strconv.Itoa` / `strconv.Atoi` -/

/-- Character of a single decimal digit, `digit < 10` intended. -/
def digChar (d : Nat) : Char := Char.ofNat (48 + d)

/-- Decimal value of a digit character, `none` for a non-digit. -/
def charDigit? (c : Char) : Option Nat :=
  if c.isDigit then some (c.toNat - 48) else none

/-- Fuel-driven most-significant-first digit expansion of a natural number.
The fuel only has to exceed the number itself. -/
def natCharsAux : Nat → Nat → List Char
  | 0, _ => []
  | fuel + 1, n =>
    if n < 10 then [digChar n]
    else natCharsAux fuel (n / 10) ++ [digChar (n % 10)]

/-- Decimal digit string of a natural number (`strconv.Itoa` on `n ≥ 0`). -/
def natChars (n : Nat) : List Char := natCharsAux (n + 1) n

/-- Embedding of Go `strconv.Itoa`. -/
def itoa (n : Int) : String :=
  if n < 0 then "-" ++ String.mk (natChars (-n).toNat)
  else String.mk (natChars n.toNat)

/-- Accumulating decimal parse of a digit list; fails on any non-digit. -/
def atoiCore : List Char → Nat → Option Nat
  | [], acc => some acc
  | c :: cs, acc =>
    match charDigit? c with
    | none => none
    | some d => atoiCore cs (acc * 10 + d)

/-- Parse a non-empty all-digit character list. -/
def atoiDigits (cs : List Char) : Option Nat :=
  if cs.isEmpty then none else atoiCore cs 0

/-- Embedding of Go `strconv.Atoi`: optional sign, then decimal digits. -/
def atoi (s : String) : Option Int :=
  match s.data with
  | [] => none
  | c :: cs =>
    if c == '-' then (atoiDigits cs).map (fun v => -(v : Int))
    else if c == '+' then (atoiDigits cs).map (fun v => (v : Int))
    else (atoiDigits (c :: cs)).map (fun v => (v : Int))

theorem charDigit?_digChar {d : Nat} (h : d < 10) : charDigit? (digChar d) = some d := by
  interval_cases d <;> decide

theorem digChar_ne_minus {d : Nat} (h : d < 10) : (digChar d == '-') = false := by
  interval_cases d <;> decide

theorem digChar_ne_plus {d : Nat} (h : d < 10) : (digChar d == '+') = false := by
  interval_cases d <;> decide

theorem atoiCore_append (xs ys : List Char) (acc : Nat) :
    atoiCore (xs ++ ys) acc =
      match atoiCore xs acc with
      | none => none
      | some a => atoiCore ys a := by
  induction xs generalizing acc with
  | nil => simp [atoiCore]
  | cons c cs ih =>
    simp only [List.cons_append, atoiCore]
    cases charDigit? c with
    | none => rfl
    | some d => exact ih _

theorem natCharsAux_eval {fuel n : Nat} (h : n < fuel) (acc : Nat) :
    atoiCore (natCharsAux fuel n) acc =
      some (acc * 10 ^ (natCharsAux fuel n).length + n) := by
  induction fuel generalizing n acc with
  | zero => omega
  | succ fuel ih =>
    by_cases hn : n < 10
    · simp only [natCharsAux, if_pos hn, atoiCore, charDigit?_digChar hn,
        List.length_singleton, pow_one]
    · have hdiv : n / 10 < fuel := by omega
      simp only [natCharsAux, if_neg hn, atoiCore_append, ih hdiv acc]
      have hm : n % 10 < 10 := Nat.mod_lt _ (by omega)
      simp only [atoiCore, charDigit?_digChar hm, List.length_append,
        List.length_singleton]
      congr 1
      have : (acc * 10 ^ (natCharsAux fuel (n / 10)).length + n / 10) * 10 + n % 10
          = acc * (10 ^ (natCharsAux fuel (n / 10)).length * 10) + (n / 10 * 10 + n % 10) := by
        ring
      rw [this, pow_succ]
      congr 1
      omega

theorem natCharsAux_all_digits {fuel n : Nat} {c : Char} (h : c ∈ natCharsAux fuel n) :
    ∃ d, d < 10 ∧ c = digChar d := by
  induction fuel generalizing n with
  | zero => simp [natCharsAux] at h
  | succ fuel ih =>
    by_cases hn : n < 10
    · simp only [natCharsAux, if_pos hn, List.mem_singleton] at h
      exact ⟨n, hn, h⟩
    · simp only [natCharsAux, if_neg hn, List.mem_append, List.mem_singleton] at h
      rcases h with h | h
      · exact ih h
      · exact ⟨n % 10, Nat.mod_lt _ (by omega), h⟩

theorem natChars_eval (n : Nat) : atoiCore (natChars n) 0 = some n := by
  have := @natCharsAux_eval (n + 1) n (by omega) 0
  simpa using this

theorem natChars_ne_nil (n : Nat) : natChars n ≠ [] := by
  unfold natChars natCharsAux
  by_cases hn : n < 10 <;> simp [hn]

/-- `strconv.Atoi` inverts `strconv.Itoa` on the non-negative integers (the
only ones that reach the store: validation enforced `NumWeeks ≥ 1`). -/
theorem atoi_itoa {n : Int} (h : 0 ≤ n) : atoi (itoa n) = some n := by
  have hnn : ¬ n < 0 := by omega
  rw [itoa, if_neg hnn]
  obtain ⟨c, cs, hcons⟩ : ∃ c cs, natChars n.toNat = c :: cs := by
    cases hx : natChars n.toNat with
    | nil => exact absurd hx (natChars_ne_nil _)
    | cons c cs => exact ⟨c, cs, rfl⟩
  obtain ⟨d, hd, hc⟩ := @natCharsAux_all_digits (n.toNat + 1) n.toNat c
    (by rw [show natCharsAux (n.toNat + 1) n.toNat = natChars n.toNat from rfl, hcons]; simp)
  have hstep : atoi (String.mk (c :: cs)) =
      if c == '-' then (atoiDigits cs).map (fun v => -(v : Int))
      else if c == '+' then (atoiDigits cs).map (fun v => (v : Int))
      else (atoiDigits (c :: cs)).map (fun v => (v : Int)) := rfl
  rw [hcons, hstep, hc, digChar_ne_minus hd, digChar_ne_plus hd]
  simp only [Bool.false_eq_true, if_false]
  have hne : ¬ (List.isEmpty (digChar d :: cs) = true) := by simp
  rw [atoiDigits, if_neg hne, ← hc, ← hcons, natChars_eval]
  simp [Int.toNat_of_nonneg h]

/-! ## The embedded workout snapshot and its opaque serialization

`services/shared/workout.go` defines `shared.Workout`; `json.Marshal` of a
`[][]shared.Workout` value is stored as a DynamoDB `B` (binary) attribute and
`json.Unmarshal` recovers it on read.  The byte payload is embedded as a list
of tokens; the encoder/decoder pair below plays the role of
`json.Marshal`/`json.Unmarshal` and is proved to round-trip. -/

/-- Embedding of `shared.Workout` (`float32` as `Rat`, `int`/`int64` as `Int`). -/
structure Workout where
  id : String
  title : String
  description : String
  difficulty : Rat
  duration : Int
  imageURL : String
  instructorID : String
  instructorName : String
  originalAirTime : Int
deriving DecidableEq

/-- One token of the opaque serialized payload. -/
inductive Tok where
  | s (v : String)
  | i (v : Int)
  | q (v : Rat)
deriving DecidableEq

/-- Serialize one workout (the `json.Marshal` field order). -/
def encWorkout (w : Workout) : List Tok :=
  [.s w.id, .s w.title, .s w.description, .q w.difficulty, .i w.duration,
   .s w.imageURL, .s w.instructorID, .s w.instructorName, .i w.originalAirTime]

/-- Deserialize one workout, returning the unread remainder. -/
def decWorkout : List Tok → Option (Workout × List Tok)
  | .s id :: .s t :: .s de :: .q df :: .i du :: .s im :: .s iid :: .s inm :: .i oat :: rest =>
    some (⟨id, t, de, df, du, im, iid, inm, oat⟩, rest)
  | _ => none

/-- Serialize a list: a length header followed by the elements. -/
def encListWith (enc : α → List Tok) (l : List α) : List Tok :=
  .i (l.length : Int) :: l.foldr (fun a acc => enc a ++ acc) []

/-- Deserialize exactly `n` elements. -/
def decCount (dec : List Tok → Option (α × List Tok)) : Nat → List Tok → Option (List α × List Tok)
  | 0, ts => some ([], ts)
  | n + 1, ts =>
    match dec ts with
    | none => none
    | some (a, ts₁) =>
      match decCount dec n ts₁ with
      | none => none
      | some (l, ts₂) => some (a :: l, ts₂)

/-- Deserialize a length-prefixed list. -/
def decListWith (dec : List Tok → Option (α × List Tok)) : List Tok → Option (List α × List Tok)
  | .i v :: ts => if v < 0 then none else decCount dec v.toNat ts
  | _ => none

/-- Serialize a nested workout schedule (`json.Marshal` of `[][]shared.Workout`). -/
def encWorkouts (ws : List (List Workout)) : List Tok :=
  encListWith (encListWith encWorkout) ws

/-- Deserialize a full payload; the whole payload must be consumed, as with
`json.Unmarshal`. -/
def decWorkouts (ts : List Tok) : Option (List (List Workout)) :=
  match decListWith (decListWith decWorkout) ts with
  | some (ws, []) => some ws
  | _ => none

theorem decWorkout_encWorkout (w : Workout) (rest : List Tok) :
    decWorkout (encWorkout w ++ rest) = some (w, rest) := by
  cases w
  rfl

theorem decListWith_encListWith
    {enc : α → List Tok} {dec : List Tok → Option (α × List Tok)}
    (hround : ∀ a rest, dec (enc a ++ rest) = some (a, rest))
    (l : List α) (rest : List Tok) :
    decListWith dec (encListWith enc l ++ rest) = some (l, rest) := by
  have key : ∀ (l : List α) (rest : List Tok),
      decCount dec l.length ((l.foldr (fun a acc => enc a ++ acc) []) ++ rest) =
        some (l, rest) := by
    intro l
    induction l with
    | nil => intro rest; simp [decCount]
    | cons a l ih =>
      intro rest
      simp only [List.foldr_cons, List.length_cons, List.append_assoc, decCount,
        hround a, ih rest]
  simp only [encListWith, List.cons_append, decListWith]
  rw [if_neg (by omega)]
  simpa using key l rest

theorem decWorkouts_encWorkouts (ws : List (List Workout)) :
    decWorkouts (encWorkouts ws) = some ws := by
  have h1 : ∀ (lw : List Workout) (rest : List Tok),
      decListWith decWorkout (encListWith encWorkout lw ++ rest) = some (lw, rest) :=
    decListWith_encListWith decWorkout_encWorkout
  have h2 := decListWith_encListWith h1 ws []
  rw [decWorkouts, encWorkouts]
  rw [show encListWith (encListWith encWorkout) ws
      = encListWith (encListWith encWorkout) ws ++ [] by simp, h2]

/-! ## Calendar dates and instants

`addChallenge` parses its date fields with `time.Parse("2006-01-02", ...)`:
exactly four year digits, a dash, two month digits, a dash, two day digits,
the whole string consumed, the month in `1..12` and the day within the month
(leap years included) — Go rejects out-of-range components.  A parsed date is
the UTC midnight instant of that day; `time.Now()` is an arbitrary instant.
For valid calendar dates chronological order is lexicographic order on
(year, month, day), so an instant is embedded as a date plus the seconds
elapsed within the day. -/

/-- A calendar date. -/
structure Date where
  year : Nat
  month : Nat
  day : Nat
deriving DecidableEq

/-- Gregorian leap-year rule. -/
def isLeap (y : Nat) : Bool := y % 4 == 0 && (y % 100 != 0 || y % 400 == 0)

/-- Length of a month, as Go's `time` package validates it. -/
def daysInMonth (y m : Nat) : Nat :=
  if m == 2 then (if isLeap y then 29 else 28)
  else if m == 4 || m == 6 || m == 9 || m == 11 then 30
  else 31

/-- Embedding of `time.Parse("2006-01-02", s)`. -/
def parseDate (s : String) : Option Date :=
  match s.data with
  | [y1, y2, y3, y4, h1, m1, m2, h2, d1, d2] =>
    if h1 == '-' && h2 == '-' then
      match charDigit? y1, charDigit? y2, charDigit? y3, charDigit? y4,
            charDigit? m1, charDigit? m2, charDigit? d1, charDigit? d2 with
      | some a, some b, some c, some d, some e, some f, some g, some h =>
        let year := ((a * 10 + b) * 10 + c) * 10 + d
        let mon := e * 10 + f
        let day := g * 10 + h
        if 1 ≤ mon && mon ≤ 12 && 1 ≤ day && day ≤ daysInMonth year mon then
          some ⟨year, mon, day⟩
        else none
      | _, _, _, _, _, _, _, _ => none
    else none
  | _ => none

/-- Strict chronological order of valid dates (lexicographic). -/
def dateLt (a b : Date) : Bool :=
  a.year < b.year ||
    (a.year == b.year && (a.month < b.month ||
      (a.month == b.month && a.day < b.day)))

/-- An instant: a date plus the seconds elapsed within that day. -/
structure Moment where
  date : Date
  secs : Nat
deriving DecidableEq

/-- Embedding of `time.Time.Before`. -/
def momentLt (a b : Moment) : Bool :=
  dateLt a.date b.date || (a.date == b.date && a.secs < b.secs)

/-- The UTC midnight instant of a date — the value `time.Parse` returns. -/
def midnight (d : Date) : Moment := ⟨d, 0⟩

/-- Embedding of Go `strings.TrimSpace`: drop leading and trailing
whitespace (executable on character lists). -/
def strTrim (s : String) : String :=
  String.mk (((s.data.dropWhile Char.isWhitespace).reverse.dropWhile
    Char.isWhitespace).reverse)

/-! ## Environment configuration and the response envelope -/

/-- The two environment variables the handlers read. -/
structure Env where
  table_region : Option String
  table_name : Option String
deriving DecidableEq

/-- Embedding of `shared.GetDBInfo` (`services/shared/db.go`).  The source
calls `errors.New` when a variable is unset but discards the constructed
error and returns `nil` unconditionally; `os.LookupEnv` yields `""` for an
unset variable, so the region and name fall back to the empty string. -/
def GetDBInfo (env : Env) : String × String × Option String :=
  let region := env.table_region.getD ""
  let _discarded₁ : Option String :=
    if env.table_region.isNone then some "table_region env var doesn't exist" else none
  let name := env.table_name.getD ""
  let _discarded₂ : Option String :=
    if env.table_name.isNone then some "table_name env var doesn't exist" else none
  (region, name, none)

/-! ## The request records (typed request bodies) -/

/-- Embedding of `customChallenge` (`services/addChallenge/addChallenge.go`). -/
structure CustomChallenge where
  id : String
  createdBy : String
  name : String
  description : String
  public : Bool
  equipmentNeeded : List String
  difficulty : Rat
  startDate : String
  endDate : String
  numWorkoutGoal : Int
  workoutTypes : List String
deriving DecidableEq

/-- Embedding of `customProgram` (the `addProgram`/`getPrograms` handlers). -/
structure CustomProgram where
  id : String
  name : String
  description : String
  public : Bool
  equipmentNeeded : List String
  numWeeks : Int
  workouts : List (List Workout)
  createdBy : String
  createdDate : String
deriving DecidableEq

/-- Embedding of `recommendation` (`services/recommendClass/recommendClass.go`). -/
structure Recommendation where
  id : String
  createdBy : String
  recommendedFor : String
  workout : Workout
deriving DecidableEq

/-- Response bodies.  A Go handler body is a string; each marshalled record
body is represented by the record itself (`json.Marshal` is injective on
these structs), an error body `{"status": n, "message": m}` by `.err n m`,
and the literal `"[]"` empty-list body by `.text "[]"`. -/
inductive Body where
  | empty
  | text (s : String)
  | err (status : Int) (message : String)
  | challenge (c : CustomChallenge)
  | program (p : CustomProgram)
  | programs (ps : List CustomProgram)
  | challenges (cs : List CustomChallenge)
  | recommendation (r : Recommendation)
deriving DecidableEq

/-- Embedding of the `events.APIGatewayProxyResponse`-plus-`error` pair every
handler returns. -/
structure Response where
  status : Int
  body : Body
  err : Option String
deriving DecidableEq

/-! ## Challenge creation: `services/addChallenge/addChallenge.go` -/

/-- Embedding of `bodyValidation` for challenges: the if-chain in source
order.  `now` stands for `time.Now()` at validation time. -/
def challengeBodyValidation (c : CustomChallenge) (now : Moment) : Option String :=
  if c.name == "" then some "name is required in request body"
  else if decide (c.difficulty ≤ 0) then some "difficulty must be a number greater than 0"
  else if decide (c.numWorkoutGoal < 1) then some "numWorkoutGoal must be a number greater than 0"
  else if c.startDate == "" then some "startDate is required in request body"
  else
    match parseDate c.startDate with
    | none => some "startDate must be in the format of YYYY-MM-DD"
    | some sDate =>
      if momentLt (midnight sDate) now then some "startDate must not be before today"
      else if c.endDate == "" then some "endDate is required in request body"
      else
        match parseDate c.endDate with
        | none => some "endDate must be in the format of YYYY-MM-DD"
        | some eDate =>
          if momentLt (midnight eDate) (midnight sDate) then some "endDate must not be before startDate"
          else if decide (c.workoutTypes.length < 1) then some "workoutTypes must not be empty"
          else none

/-- A stored challenge item: the DynamoDB attributes `putItem` writes.  An
attribute may be absent on an arbitrary item, hence the `Option`s; the numeric
attributes (`Difficulty`, `NumWorkoutGoal`) hold their decimal string, the
`N` attribute representation. -/
structure ChItem where
  Id : Option String
  CreatedBy : Option String
  Name : Option String
  Description : Option String
  Public : Option Bool
  EquipmentNeeded : Option (List String)
  Difficulty : Option String
  StartDate : Option String
  EndDate : Option String
  NumWorkoutGoal : Option String
  WorkoutTypes : Option (List String)
deriving DecidableEq

/-- Embedding of `nameValidation` for challenges: a table scan whose filter
expression is `#N = :name and #P = :public` when the new record is public and
`#N = :name and CreatedBy = :createdBy` when it is private; a scan failure is
surfaced as a 500 with the underlying error text.  A DynamoDB equality filter
only matches items that carry the attribute. -/
def nameValidationChallenge (c : CustomChallenge)
    (scan : Except String (List ChItem)) : Int × Option String :=
  match scan with
  | .error e => (500, some ("Unable to get existing challenges: " ++ e))
  | .ok table =>
  let conflicts :=
    if c.public then
      table.filter (fun it => it.Name == some c.name && it.Public == some true)
    else
      table.filter (fun it => it.Name == some c.name && it.CreatedBy == some c.createdBy)
  if conflicts.length > 0 then
    (400, some ("A challenge with the name " ++ c.name ++ " already exists"))
  else (-1, none)

/-- Embedding of the `addChallenge` handler.  The request is its `UserID`
header and its already-deserialized JSON body (`none` = malformed body);
`freshId` stands for `uuid.New().String()`, `scan` for the outcome the
uniqueness-guard table scan would observe, and `now` for `time.Now()`.  The
final `putItem` is modelled as succeeding, which is the path the claims
exercise. -/
def addChallengeHandler (userIDHeader : Option String) (env : Env)
    (reqBody : Option CustomChallenge) (freshId : String)
    (scan : Except String (List ChItem)) (now : Moment) : Response :=
  let userID := strTrim (userIDHeader.getD "")
  if userIDHeader.isNone || userID == "" then
    ⟨400, .err 400 "UserID header is required", none⟩
  else
    match GetDBInfo env with
    | (_, _, some e) => ⟨500, .empty, some e⟩
    | (_, _, none) =>
      match reqBody with
      | none => ⟨400, .err 400 "Invalid request body", none⟩
      | some parsed =>
        let c := { parsed with id := freshId, createdBy := userID }
        match challengeBodyValidation c now with
        | some msg => ⟨400, .err 400 msg, none⟩
        | none =>
          match nameValidationChallenge c scan with
          | (code, some msg) => ⟨code, .err code msg, none⟩
          | (_, none) => ⟨200, .challenge c, none⟩

/-- The challenge validation rules in their fixed source order, each as a
guard (true = violated) and its user-facing message.  This is the
specification-side reading of §4.2: a list of rules evaluated sequentially. -/
def challengeRuleList (c : CustomChallenge) (now : Moment) : List (Bool × String) :=
  [ (c.name == "", "name is required in request body"),
    (decide (c.difficulty ≤ 0), "difficulty must be a number greater than 0"),
    (decide (c.numWorkoutGoal < 1), "numWorkoutGoal must be a number greater than 0"),
    (c.startDate == "", "startDate is required in request body"),
    ((parseDate c.startDate).isNone, "startDate must be in the format of YYYY-MM-DD"),
    ((parseDate c.startDate).elim false (fun d => momentLt (midnight d) now),
      "startDate must not be before today"),
    (c.endDate == "", "endDate is required in request body"),
    ((parseDate c.endDate).isNone, "endDate must be in the format of YYYY-MM-DD"),
    ((match parseDate c.startDate, parseDate c.endDate with
      | some ds, some de => momentLt (midnight de) (midnight ds)
      | _, _ => false), "endDate must not be before startDate"),
    (decide (c.workoutTypes.length < 1), "workoutTypes must not be empty") ]

/-- The message of the first violated rule, `none` when every rule passes. -/
def firstViolation (rules : List (Bool × String)) : Option String :=
  (rules.find? (fun r => r.1)).map (fun r => r.2)

/-! ## Program creation and reads

Current sources: the `addProgram` handler (plain-`git`-history sibling of
`addChallenge`, the revision using `shared.GetDBInfo` and `shared.Workout`)
and `services/getPrograms/getPrograms.go`.  The repository also carries an
older `getPrograms` revision whose `getItemByID`/`getAllItems` differ; those
are embedded separately below. -/

/-- Embedding of `bodyValidation` for programs. -/
def programBodyValidation (cp : CustomProgram) : Option String :=
  if cp.name == "" then some "name is required in request body"
  else if decide (cp.numWeeks < 1) then some "numWeeks must be a number greater than 0"
  else if decide (cp.workouts.length < 1) then some "workouts must not be empty"
  else none

/-- A stored program item: the DynamoDB attributes the program `putItem`
writes.  `NumWeeks` holds the decimal string of an `N` attribute and
`Workouts` the opaque serialized payload of a `B` attribute. -/
structure ProgItem where
  Id : Option String
  Name : Option String
  Description : Option String
  Public : Option Bool
  EquipmentNeeded : Option (List String)
  NumWeeks : Option String
  Workouts : Option (List Tok)
  CreatedBy : Option String
  CreatedDate : Option String
deriving DecidableEq

/-- Embedding of `nameValidation` for programs (same scan and failure shape
as the challenge guard). -/
def nameValidationProgram (cp : CustomProgram)
    (scan : Except String (List ProgItem)) : Int × Option String :=
  match scan with
  | .error e => (500, some ("Unable to get existing programs: " ++ e))
  | .ok table =>
  let conflicts :=
    if cp.public then
      table.filter (fun it => it.Name == some cp.name && it.Public == some true)
    else
      table.filter (fun it => it.Name == some cp.name && it.CreatedBy == some cp.createdBy)
  if conflicts.length > 0 then
    (400, some ("A program with the name " ++ cp.name ++ " already exists"))
  else (-1, none)

/-- The field assignments `addProgram` performs between parsing and
validation: stamp the generated id and the identity header onto the record
and trim the name and description. -/
def stampProgram (cp : CustomProgram) (userID freshId : String) : CustomProgram :=
  { cp with
    id := freshId
    createdBy := userID
    name := strTrim cp.name
    description := strTrim cp.description }

/-- Embedding of the program `putItem`: the attribute map written to the
table.  `createdDate` stands for `time.Now().Format(time.RFC3339)`. -/
def programPutItem (cp : CustomProgram) (workoutsData : List Tok) (createdDate : String) : ProgItem :=
  { Id := some cp.id
    Name := some cp.name
    Description := some cp.description
    Public := some cp.public
    EquipmentNeeded := some cp.equipmentNeeded
    NumWeeks := some (itoa cp.numWeeks)
    Workouts := some workoutsData
    CreatedBy := some cp.createdBy
    CreatedDate := some createdDate }

/-- Embedding of `formatOutput` (`services/getPrograms/getPrograms.go`): each
present attribute is copied onto a zero-valued `customProgram`; `NumWeeks`
goes through `strconv.Atoi` and the `Workouts` payload through
`json.Unmarshal`, either failure aborting with an error. -/
def formatProgramOutput (it : ProgItem) : Except String CustomProgram :=
  let base : CustomProgram :=
    { id := it.Id.getD ""
      name := it.Name.getD ""
      description := it.Description.getD ""
      public := it.Public.getD false
      equipmentNeeded := it.EquipmentNeeded.getD []
      numWeeks := 0
      workouts := []
      createdBy := it.CreatedBy.getD ""
      createdDate := it.CreatedDate.getD "" }
  match it.NumWeeks with
  | some s =>
    match atoi s with
    | none => .error ("Unable to convert NumWeeks to int: " ++ s)
    | some n =>
      match it.Workouts with
      | none => .error "Unable to unmarshal response: unexpected end of JSON input"
      | some payload =>
        match decWorkouts payload with
        | none => .error "Unable to unmarshal response: invalid workouts payload"
        | some ws => .ok { base with numWeeks := n, workouts := ws }
  | none =>
    match it.Workouts with
    | none => .error "Unable to unmarshal response: unexpected end of JSON input"
    | some payload =>
      match decWorkouts payload with
      | none => .error "Unable to unmarshal response: invalid workouts payload"
      | some ws => .ok { base with workouts := ws }

/-- DynamoDB `GetItem` with key `Id = id`. -/
def getItemById (table : List ProgItem) (id : String) : Option ProgItem :=
  table.find? (fun it => it.Id == some id)

/-- Embedding of `getProgramByID` (`services/getPrograms/getPrograms.go`):
400 when the key is absent, a 500 error when `Public` or `CreatedBy` is
missing, 401 when the item is private and owned by someone else, otherwise
the formatted record. -/
def getProgramByID (table : List ProgItem) (userID programID : String) : Response :=
  match getItemById table programID with
  | none => ⟨400, .err 400 ("Unable to find program " ++ programID), none⟩
  | some it =>
    match it.Public, it.CreatedBy with
    | some pub, some cb =>
      if pub == false && cb != userID then
        ⟨401, .err 401 "Unauthorized to view this program", none⟩
      else
        match formatProgramOutput it with
        | .error e => ⟨500, .empty, some e⟩
        | .ok p => ⟨200, .program p, none⟩
    | _, _ => ⟨500, .empty, some "Invalid nil pointer on Public or CreatedBy"⟩

/-- The `public OR owner` scan filter of the list-all paths. -/
def programListFilter (userID : String) (it : ProgItem) : Bool :=
  it.Public == some true || it.CreatedBy == some userID

/-- Embedding of `getAllPrograms` (`services/getPrograms/getPrograms.go`):
an empty filtered scan yields `200` with the literal `"[]"` body. -/
def getAllPrograms (table : List ProgItem) (userID : String) : Response :=
  let items := table.filter (programListFilter userID)
  if items.length == 0 then ⟨200, .text "[]", none⟩
  else
    match items.mapM formatProgramOutput with
    | .error e => ⟨500, .empty, some e⟩
    | .ok ps => ⟨200, .programs ps, none⟩

/-- Embedding of the `addProgram` handler (header, env, parse, stamp,
serialize, validate, uniqueness guard, put, echo). -/
def addProgramHandler (userIDHeader : Option String) (env : Env)
    (reqBody : Option CustomProgram) (freshId : String)
    (scan : Except String (List ProgItem)) : Response :=
  let userID := strTrim (userIDHeader.getD "")
  if userIDHeader.isNone || userID == "" then
    ⟨400, .err 400 "UserID header is required", none⟩
  else
    match GetDBInfo env with
    | (_, _, some e) => ⟨500, .empty, some e⟩
    | (_, _, none) =>
      match reqBody with
      | none => ⟨400, .err 400 "Invalid request body", none⟩
      | some parsed =>
        let cp := stampProgram parsed userID freshId
        match programBodyValidation cp with
        | some msg => ⟨400, .err 400 msg, none⟩
        | none =>
          match nameValidationProgram cp scan with
          | (code, some msg) => ⟨code, .err code msg, none⟩
          | (_, none) => ⟨200, .program cp, none⟩

/-! ## The older `getPrograms` revision kept in the repository

Its `getItemByID` guards the 401 branch with
`getItemOutput.Item["Public"].BOOL == aws.Bool(false) &&
getItemOutput.Item["CreatedBy"].S != &userID`.  Both are Go *pointer*
comparisons: `aws.Bool(false)` allocates a fresh `*bool`, so no stored
pointer ever equals it, and `&userID` is the address of a local variable, so
every stored pointer differs from it.  The two helpers below state those
aliasing facts; the left conjunct being constantly `false` makes the 401
branch unreachable. -/

/-- Go pointer identity of a stored `*bool` attribute against the freshly
allocated `aws.Bool(false)`: always false. -/
def ptrEqFreshBool (_stored : Option Bool) : Bool := false

/-- Go pointer inequality of a stored `*string` attribute against the address
of the handler's local `userID` variable: always true. -/
def ptrNeLocalAddr (_stored : Option String) (_userID : String) : Bool := true

/-- Embedding of `getItemByID` from the older `getPrograms` revision, with
the pointer-comparison access guard as written. -/
def getItemByIDOld (table : List ProgItem) (userID programID : String) : Response :=
  match getItemById table programID with
  | none => ⟨400, .err 400 ("Unable to find program " ++ programID), none⟩
  | some it =>
    if ptrEqFreshBool it.Public && ptrNeLocalAddr it.CreatedBy userID then
      ⟨401, .err 401 "Unauthorized to view this program", none⟩
    else
      match formatProgramOutput it with
      | .error e => ⟨500, .empty, some e⟩
      | .ok p => ⟨200, .program p, none⟩

/-- Embedding of `getAllItems` from the older `getPrograms` revision: an
empty filtered scan yields `400` with "Unable to find any programs". -/
def getAllItemsOld (table : List ProgItem) (userID : String) : Response :=
  let items := table.filter (programListFilter userID)
  if items.length == 0 then
    ⟨400, .err 400 "Unable to find any programs", none⟩
  else
    match items.mapM formatProgramOutput with
    | .error e => ⟨500, .empty, some e⟩
    | .ok ps => ⟨200, .programs ps, none⟩

/-! ## Challenge reads: `services/getChallenges/getChallenges.go` -/

/-- Embedding of `strconv.ParseFloat` on the decimal strings the handlers
store: optional sign, integer digits, optional fraction digits. -/
def parseDec (s : String) : Option Rat :=
  let core (cs : List Char) : Option Rat :=
    let intPart := cs.takeWhile Char.isDigit
    let rest := cs.dropWhile Char.isDigit
    if intPart.isEmpty then none
    else
      match atoiCore intPart 0 with
      | none => none
      | some ip =>
        match rest with
        | [] => some (ip : Rat)
        | '.' :: frac =>
          match atoiCore frac 0 with
          | none => none
          | some fp => some ((ip : Rat) + (fp : Rat) / ((10 : Rat) ^ frac.length))
        | _ => none
  match s.data with
  | '-' :: cs => (core cs).map (fun q => -q)
  | '+' :: cs => core cs
  | cs => core cs

/-- Embedding of `formatOutput` (`services/getChallenges/getChallenges.go`). -/
def formatChallengeOutput (it : ChItem) : Except String CustomChallenge :=
  let base : CustomChallenge :=
    { id := it.Id.getD ""
      createdBy := it.CreatedBy.getD ""
      name := it.Name.getD ""
      description := it.Description.getD ""
      public := it.Public.getD false
      equipmentNeeded := it.EquipmentNeeded.getD []
      difficulty := 0
      startDate := it.StartDate.getD ""
      endDate := it.EndDate.getD ""
      numWorkoutGoal := 0
      workoutTypes := it.WorkoutTypes.getD [] }
  match it.Difficulty with
  | some s =>
    match parseDec s with
    | none => .error ("Unable to convert Difficulty to float: " ++ s)
    | some q =>
      match it.NumWorkoutGoal with
      | some t =>
        match atoi t with
        | none => .error ("Unable to convert NumWorkoutGoal to int: " ++ t)
        | some n => .ok { base with difficulty := q, numWorkoutGoal := n }
      | none => .ok { base with difficulty := q }
  | none =>
    match it.NumWorkoutGoal with
    | some t =>
      match atoi t with
      | none => .error ("Unable to convert NumWorkoutGoal to int: " ++ t)
      | some n => .ok { base with numWorkoutGoal := n }
    | none => .ok base

/-- The `public OR owner` scan filter of `getAllChallenges`. -/
def challengeListFilter (userID : String) (it : ChItem) : Bool :=
  it.Public == some true || it.CreatedBy == some userID

/-- Embedding of `getAllChallenges`: an empty filtered scan yields `200`
with the literal `"[]"` body. -/
def getAllChallenges (table : List ChItem) (userID : String) : Response :=
  let items := table.filter (challengeListFilter userID)
  if items.length == 0 then ⟨200, .text "[]", none⟩
  else
    match items.mapM formatChallengeOutput with
    | .error e => ⟨500, .empty, some e⟩
    | .ok cs => ⟨200, .challenges cs, none⟩

/-! ## Recommendations: `services/recommendClass/recommendClass.go` -/

/-- A stored recommendation item: the attributes its `putItem` writes. -/
structure RecItem where
  Id : Option String
  CreatedBy : Option String
  RecommendedFor : Option String
  Workout : Option (List Tok)
deriving DecidableEq

/-- Embedding of `bodyValidation` for recommendations. -/
def recBodyValidation (r : Recommendation) : Option String :=
  if r.recommendedFor == "" then some "recommendedFor is required in request body"
  else if r.recommendedFor == r.createdBy then some "Unable to recommend a class to yourself"
  else none

/-- Embedding of `recommendationValidation`: a scan filtered on
`CreatedBy = :createdBy and RecommendedFor = :recommendedFor and
Workout = :workout` (the workout compared as its serialized payload); a scan
failure is surfaced as a 500 with the underlying error text. -/
def recommendationValidation (r : Recommendation) (workoutData : List Tok)
    (scan : Except String (List RecItem)) : Int × Option String :=
  match scan with
  | .error e => (500, some ("Unable to get existing recommendations: " ++ e))
  | .ok table =>
    let conflicts := table.filter (fun it =>
      it.CreatedBy == some r.createdBy &&
      it.RecommendedFor == some r.recommendedFor &&
      it.Workout == some workoutData)
    if conflicts.length > 0 then (400, some "That recommendation already exists")
    else (-1, none)

/-- Embedding of the `recommendClass` handler; `scan` is the outcome the
table scan of the uniqueness guard would observe. -/
def recommendClassHandler (userIDHeader : Option String) (env : Env)
    (reqBody : Option Recommendation) (freshId : String)
    (scan : Except String (List RecItem)) : Response :=
  let userID := strTrim (userIDHeader.getD "")
  if userIDHeader.isNone || userID == "" then
    ⟨400, .err 400 "UserID header is required", none⟩
  else
    match GetDBInfo env with
    | (_, _, some e) => ⟨500, .empty, some e⟩
    | (_, _, none) =>
      match reqBody with
      | none => ⟨400, .err 400 "Invalid request body", none⟩
      | some parsed =>
        let r := { parsed with id := freshId, createdBy := userID }
        let workoutData := encWorkout r.workout
        match recBodyValidation r with
        | some msg => ⟨400, .err 400 msg, none⟩
        | none =>
          match recommendationValidation r workoutData scan with
          | (code, some msg) => ⟨code, .err code msg, none⟩
          | (_, none) => ⟨200, .recommendation r, none⟩

/-! ## Shared lemmas -/

theorem filter_length_pos_iff {α} (p : α → Bool) (l : List α) :
    0 < (l.filter p).length ↔ ∃ a ∈ l, p a = true := by
  rw [List.length_pos, Ne, List.filter_eq_nil_iff]
  push_neg
  simp

/-- C1: the uniqueness guard of Program/Challenge creation fails with status
400 and the duplicate message exactly when, for a public record, some stored
record of that kind has the same name and is public, and, for a private
record, some stored record has the same name and the same owner — so a
private record of a different owner never blocks. -/
theorem nameValidation_scope_iff :
    (∀ (c : CustomChallenge) (table : List ChItem),
      nameValidationChallenge c (.ok table) =
        if c.public then
          (if ∃ it ∈ table, it.Name = some c.name ∧ it.Public = some true
           then (400, some ("A challenge with the name " ++ c.name ++ " already exists"))
           else (-1, none))
        else
          (if ∃ it ∈ table, it.Name = some c.name ∧ it.CreatedBy = some c.createdBy
           then (400, some ("A challenge with the name " ++ c.name ++ " already exists"))
           else (-1, none)))
    ∧ (∀ (cp : CustomProgram) (table : List ProgItem),
      nameValidationProgram cp (.ok table) =
        if cp.public then
          (if ∃ it ∈ table, it.Name = some cp.name ∧ it.Public = some true
           then (400, some ("A program with the name " ++ cp.name ++ " already exists"))
           else (-1, none))
        else
          (if ∃ it ∈ table, it.Name = some cp.name ∧ it.CreatedBy = some cp.createdBy
           then (400, some ("A program with the name " ++ cp.name ++ " already exists"))
           else (-1, none))) := by
  constructor
  · intro c table
    rw [show nameValidationChallenge c (.ok table) =
        (let conflicts :=
          if c.public then
            table.filter (fun it => it.Name == some c.name && it.Public == some true)
          else
            table.filter (fun it => it.Name == some c.name && it.CreatedBy == some c.createdBy)
         if conflicts.length > 0 then
           (400, some ("A challenge with the name " ++ c.name ++ " already exists"))
         else (-1, none)) from rfl]
    cases hp : c.public with
    | true =>
      simp only [if_true, if_pos rfl]
      by_cases hex : ∃ it ∈ table, it.Name = some c.name ∧ it.Public = some true
      · rw [if_pos ((filter_length_pos_iff _ _).mpr (by simpa using hex)), if_pos hex]
      · rw [if_neg (by rw [gt_iff_lt, filter_length_pos_iff]; simpa using hex), if_neg hex]
    | false =>
      simp only [Bool.false_eq_true, if_false]
      by_cases hex : ∃ it ∈ table, it.Name = some c.name ∧ it.CreatedBy = some c.createdBy
      · rw [if_pos ((filter_length_pos_iff _ _).mpr (by simpa using hex)), if_pos hex]
      · rw [if_neg (by rw [gt_iff_lt, filter_length_pos_iff]; simpa using hex), if_neg hex]
  · intro cp table
    rw [show nameValidationProgram cp (.ok table) =
        (let conflicts :=
          if cp.public then
            table.filter (fun it => it.Name == some cp.name && it.Public == some true)
          else
            table.filter (fun it => it.Name == some cp.name && it.CreatedBy == some cp.createdBy)
         if conflicts.length > 0 then
           (400, some ("A program with the name " ++ cp.name ++ " already exists"))
         else (-1, none)) from rfl]
    cases hp : cp.public with
    | true =>
      simp only [if_true, if_pos rfl]
      by_cases hex : ∃ it ∈ table, it.Name = some cp.name ∧ it.Public = some true
      · rw [if_pos ((filter_length_pos_iff _ _).mpr (by simpa using hex)), if_pos hex]
      · rw [if_neg (by rw [gt_iff_lt, filter_length_pos_iff]; simpa using hex), if_neg hex]
    | false =>
      simp only [Bool.false_eq_true, if_false]
      by_cases hex : ∃ it ∈ table, it.Name = some cp.name ∧ it.CreatedBy = some cp.createdBy
      · rw [if_pos ((filter_length_pos_iff _ _).mpr (by simpa using hex)), if_pos hex]
      · rw [if_neg (by rw [gt_iff_lt, filter_length_pos_iff]; simpa using hex), if_neg hex]

/-- C9: the recommendation uniqueness guard fails with 400 and "That
recommendation already exists" exactly when some stored recommendation
matches the same (creator, recipient, serialized workout) triple, and a
store-scan failure instead yields 500 with the underlying error text. -/
theorem recommendationValidation_iff :
    (∀ (r : Recommendation) (w : List Tok) (table : List RecItem),
      recommendationValidation r w (.ok table) =
        if ∃ it ∈ table, it.CreatedBy = some r.createdBy ∧
            it.RecommendedFor = some r.recommendedFor ∧ it.Workout = some w
        then (400, some "That recommendation already exists")
        else (-1, none))
    ∧ (∀ (r : Recommendation) (w : List Tok) (e : String),
      recommendationValidation r w (.error e) =
        (500, some ("Unable to get existing recommendations: " ++ e))) := by
  constructor
  · intro r w table
    have hred : recommendationValidation r w (.ok table) =
        (if (table.filter (fun it => it.CreatedBy == some r.createdBy &&
              it.RecommendedFor == some r.recommendedFor && it.Workout == some w)).length > 0
         then (400, some "That recommendation already exists") else (-1, none)) := rfl
    rw [hred]
    by_cases hex : ∃ it ∈ table, it.CreatedBy = some r.createdBy ∧
        it.RecommendedFor = some r.recommendedFor ∧ it.Workout = some w
    · rw [if_pos ((filter_length_pos_iff _ _).mpr (by simpa [and_assoc] using hex)), if_pos hex]
    · rw [if_neg (by rw [gt_iff_lt, filter_length_pos_iff]; simpa [and_assoc] using hex), if_neg hex]
  · intro r w e
    rfl

/-- C10: `shared.GetDBInfo` always returns a nil error — the error values it
constructs for unset `table_region`/`table_name` are discarded — so the
500 branch a handler guards with its error result is unreachable, and the
handler's outcome does not depend on the environment at all (with an unset
variable it proceeds with the empty region and table name). -/
theorem getDBInfo_err_none_and_env_irrelevant :
    (∀ env : Env, (GetDBInfo env).2.2 = none)
    ∧ (∀ (env env' : Env) (hdr : Option String) (body : Option CustomChallenge)
        (freshId : String) (scan : Except String (List ChItem)) (now : Moment),
      addChallengeHandler hdr env body freshId scan now =
        addChallengeHandler hdr env' body freshId scan now) := by
  exact ⟨fun _ => rfl, fun _ _ _ _ _ _ _ => rfl⟩

/-- C7: challenge validation is sequential and short-circuiting — its result
is exactly the message of the first violated rule of the fixed evaluation
order (name, difficulty, workout goal, start presence, start format, start
not past, end presence, end format, end order, workout types), rules after
the first violation contributing nothing. -/
theorem challengeBodyValidation_firstViolation (c : CustomChallenge) (now : Moment) :
    challengeBodyValidation c now = firstViolation (challengeRuleList c now) := by
  unfold challengeBodyValidation firstViolation challengeRuleList
  cases h1 : (c.name == "")
  case true => simp [List.find?]
  case false =>
  cases h2 : decide (c.difficulty ≤ 0)
  case true => simp [List.find?, h1]
  case false =>
  cases h3 : decide (c.numWorkoutGoal < 1)
  case true => simp [List.find?, h1, h2]
  case false =>
  cases h4 : (c.startDate == "")
  case true => simp [List.find?, h1, h2, h3]
  case false =>
  cases h5 : parseDate c.startDate
  case none => simp [List.find?, h1, h2, h3, h4, h5]
  case some sDate =>
  cases h6 : momentLt (midnight sDate) now
  case true => simp [List.find?, h1, h2, h3, h4, h5, h6]
  case false =>
  cases h7 : (c.endDate == "")
  case true => simp [List.find?, h1, h2, h3, h4, h5, h6]
  case false =>
  cases h8 : parseDate c.endDate
  case none => simp [List.find?, h1, h2, h3, h4, h5, h6, h7, h8]
  case some eDate =>
  cases h9 : momentLt (midnight eDate) (midnight sDate)
  case true => simp [List.find?, h1, h2, h3, h4, h5, h6, h7, h8, h9]
  case false =>
  cases h10 : decide (c.workoutTypes.length < 1)
  case true => simp [List.find?, h1, h2, h3, h4, h5, h6, h7, h8, h9, h10]
  case false => simp [List.find?, h1, h2, h3, h4, h5, h6, h7, h8, h9, h10]

/-- A passing challenge validation pins down the date facts: both dates
parsed, the start date is not before `now`, and the end date is not before
the start date. -/
theorem challengeValidation_none_dates {c : CustomChallenge} {now : Moment}
    (h : challengeBodyValidation c now = none) :
    ∃ ds de, parseDate c.startDate = some ds ∧ parseDate c.endDate = some de ∧
      momentLt (midnight ds) now = false ∧ momentLt (midnight de) (midnight ds) = false := by
  revert h
  unfold challengeBodyValidation
  cases h1 : (c.name == "")
  case true => intro h; simp_all
  case false =>
  cases h2 : decide (c.difficulty ≤ 0)
  case true => intro h; simp_all
  case false =>
  cases h3 : decide (c.numWorkoutGoal < 1)
  case true => intro h; simp_all
  case false =>
  cases h4 : (c.startDate == "")
  case true => intro h; simp_all
  case false =>
  cases h5 : parseDate c.startDate
  case none => intro h; simp_all
  case some sDate =>
  cases h6 : momentLt (midnight sDate) now
  case true => intro h; simp_all
  case false =>
  cases h7 : (c.endDate == "")
  case true => intro h; simp_all
  case false =>
  cases h8 : parseDate c.endDate
  case none => intro h; simp_all
  case some eDate =>
  cases h9 : momentLt (midnight eDate) (midnight sDate)
  case true => intro h; simp_all
  case false =>
  cases h10 : decide (c.workoutTypes.length < 1)
  case true => intro h; simp_all
  case false => exact fun _ => ⟨sDate, eDate, rfl, rfl, h6, h9⟩

/-- With a non-blank `UserID` header the `addChallenge` handler reaches
validation: it stamps the fresh id and the trimmed header onto the parsed
body and proceeds to the validation/guard/put sequence. -/
theorem addChallengeHandler_reaches_validation
    (s : String) (hs : strTrim s ≠ "") (env : Env) (c : CustomChallenge)
    (freshId : String) (scan : Except String (List ChItem)) (now : Moment) :
    addChallengeHandler (some s) env (some c) freshId scan now =
      (match challengeBodyValidation { c with id := freshId, createdBy := strTrim s } now with
       | some msg => ⟨400, .err 400 msg, none⟩
       | none =>
         match nameValidationChallenge { c with id := freshId, createdBy := strTrim s } scan with
         | (code, some msg) => ⟨code, .err code msg, none⟩
         | (_, none) => ⟨200, .challenge { c with id := freshId, createdBy := strTrim s }, none⟩) := by
  unfold addChallengeHandler
  simp only [Option.isNone_some, Option.getD_some, Bool.false_or, beq_iff_eq]
  rw [if_neg hs]
  rfl

/-- C6: challenge dates must parse under the fixed `YYYY-MM-DD` calendar
format for validation to pass; with a non-blank identity header and a parsed
body, an end date strictly before the start date yields status 400 whatever
the other fields hold, and a start date before the current instant at
validation time yields status 400 (validation is time-dependent). -/
theorem challenge_date_validation :
    (∀ (c : CustomChallenge) (now : Moment), challengeBodyValidation c now = none →
      (parseDate c.startDate).isSome ∧ (parseDate c.endDate).isSome)
    ∧ (∀ (s : String) (env : Env) (c : CustomChallenge) (freshId : String)
        (scan : Except String (List ChItem)) (now : Moment) (ds de : Date),
      strTrim s ≠ "" → parseDate c.startDate = some ds → parseDate c.endDate = some de →
      momentLt (midnight de) (midnight ds) = true →
      (addChallengeHandler (some s) env (some c) freshId scan now).status = 400)
    ∧ (∀ (s : String) (env : Env) (c : CustomChallenge) (freshId : String)
        (scan : Except String (List ChItem)) (now : Moment) (ds : Date),
      strTrim s ≠ "" → parseDate c.startDate = some ds →
      momentLt (midnight ds) now = true →
      (addChallengeHandler (some s) env (some c) freshId scan now).status = 400) := by
  refine ⟨?_, ?_, ?_⟩
  · intro c now h
    obtain ⟨ds, de, hds, hde, _, _⟩ := challengeValidation_none_dates h
    rw [hds, hde]
    exact ⟨rfl, rfl⟩
  · intro s env c freshId scan now ds de hs hds hde hlt
    rw [addChallengeHandler_reaches_validation s hs env c freshId scan now]
    cases hv : challengeBodyValidation { c with id := freshId, createdBy := strTrim s } now with
    | none =>
      obtain ⟨ds', de', hds', hde', _, hlt'⟩ := challengeValidation_none_dates hv
      have heds : ds' = ds := by
        have : parseDate c.startDate = some ds' := hds'
        rw [hds] at this
        exact (Option.some.injEq _ _ ▸ this).symm
      have hede : de' = de := by
        have : parseDate c.endDate = some de' := hde'
        rw [hde] at this
        exact (Option.some.injEq _ _ ▸ this).symm
      rw [heds, hede] at hlt'
      rw [hlt'] at hlt
      exact absurd hlt (by simp)
    | some msg => rfl
  · intro s env c freshId scan now ds hs hds hlt
    rw [addChallengeHandler_reaches_validation s hs env c freshId scan now]
    cases hv : challengeBodyValidation { c with id := freshId, createdBy := strTrim s } now with
    | none =>
      obtain ⟨ds', de', hds', hde', hpast, _⟩ := challengeValidation_none_dates hv
      have heds : ds' = ds := by
        have : parseDate c.startDate = some ds' := hds'
        rw [hds] at this
        exact (Option.some.injEq _ _ ▸ this).symm
      rw [heds] at hpast
      rw [hpast] at hlt
      exact absurd hlt (by simp)
    | some msg => rfl

/-! ## Concrete example values used by witnesses and counterexamples -/

/-- A fixed "current time" for concrete evaluations: 2026-10-11 midnight. -/
def exNow : Moment := ⟨⟨2026, 10, 11⟩, 0⟩

/-- A concrete environment with both variables set. -/
def exEnv : Env := ⟨some "us-east-1", some "pelodata"⟩

/-- A fully valid challenge body. -/
def exChallengeOk : CustomChallenge :=
  { id := ""
    createdBy := ""
    name := "Fall tuneup"
    description := "ride more"
    public := true
    equipmentNeeded := ["bike"]
    difficulty := 5
    startDate := "2099-01-02"
    endDate := "2099-01-03"
    numWorkoutGoal := 10
    workoutTypes := ["cycling"] }

/-- A challenge body whose end date precedes its start date. -/
def exChallengeBadDates : CustomChallenge :=
  { exChallengeOk with startDate := "2099-01-05", endDate := "2099-01-02" }

/-- A challenge body whose start date is in the past relative to `exNow`. -/
def exChallengePast : CustomChallenge :=
  { exChallengeOk with startDate := "2000-01-01", endDate := "2099-01-02" }

/-- Concrete instances of the date rules: a valid body parses, and the
bad-dates and past-start bodies are both answered with 400. -/
theorem challenge_date_validation_witness :
    ((parseDate exChallengeOk.startDate).isSome ∧ (parseDate exChallengeOk.endDate).isSome)
    ∧ (addChallengeHandler (some "u1") exEnv (some exChallengeBadDates) "id-1" (.ok []) exNow).status = 400
    ∧ (addChallengeHandler (some "u1") exEnv (some exChallengePast) "id-1" (.ok []) exNow).status = 400 := by
  refine ⟨challenge_date_validation.1 exChallengeOk exNow (by decide), ?_, ?_⟩
  · exact challenge_date_validation.2.1 "u1" exEnv exChallengeBadDates "id-1" (.ok []) exNow
      ⟨2099, 1, 5⟩ ⟨2099, 1, 2⟩ (by decide) (by decide) (by decide) (by decide)
  · exact challenge_date_validation.2.2 "u1" exEnv exChallengePast "id-1" (.ok []) exNow
      ⟨2000, 1, 1⟩ (by decide) (by decide) (by decide)

/-- With a non-blank `UserID` header the `addProgram` handler reaches
validation on the stamped, trimmed record. -/
theorem addProgramHandler_reaches_validation
    (s : String) (hs : strTrim s ≠ "") (env : Env) (cp : CustomProgram)
    (freshId : String) (scan : Except String (List ProgItem)) :
    addProgramHandler (some s) env (some cp) freshId scan =
      (match programBodyValidation (stampProgram cp (strTrim s) freshId) with
       | some msg => ⟨400, .err 400 msg, none⟩
       | none =>
         match nameValidationProgram (stampProgram cp (strTrim s) freshId) scan with
         | (code, some msg) => ⟨code, .err code msg, none⟩
         | (_, none) => ⟨200, .program (stampProgram cp (strTrim s) freshId), none⟩) := by
  unfold addProgramHandler
  simp only [Option.isNone_some, Option.getD_some, Bool.false_or, beq_iff_eq]
  rw [if_neg hs]
  rfl

/-- A challenge body that is valid except that its name is whitespace-only. -/
def exChallengeBlankName : CustomChallenge := { exChallengeOk with name := " " }

/-- C2 counterexample: a Challenge creation request whose name is whitespace
only (blank after trimming) is not rejected — with an otherwise valid body it
sails through validation and the guard and creation succeeds with 200,
because `addChallenge` checks the untrimmed name against `""` only. -/
theorem whitespace_name_not_rejected_for_challenge :
    strTrim exChallengeBlankName.name = ""
    ∧ (addChallengeHandler (some "u1") exEnv (some exChallengeBlankName) "id-1" (.ok []) exNow).status = 200 := by
  decide

/-- C2 amended: Program creation trims the name before validation, so a name
that is empty or whitespace-only is rejected with 400 and the name-required
message whatever the store holds (no store access can influence the
response); Challenge creation rejects only the exactly-empty untrimmed name
in the same way. -/
theorem name_required_validation :
    (∀ (s : String) (env : Env) (cp : CustomProgram) (freshId : String)
        (scan : Except String (List ProgItem)),
      strTrim s ≠ "" → strTrim cp.name = "" →
      addProgramHandler (some s) env (some cp) freshId scan =
        ⟨400, .err 400 "name is required in request body", none⟩)
    ∧ (∀ (s : String) (env : Env) (c : CustomChallenge) (freshId : String)
        (scan : Except String (List ChItem)) (now : Moment),
      strTrim s ≠ "" → c.name = "" →
      addChallengeHandler (some s) env (some c) freshId scan now =
        ⟨400, .err 400 "name is required in request body", none⟩) := by
  constructor
  · intro s env cp freshId scan hs hname
    rw [addProgramHandler_reaches_validation s hs env cp freshId scan]
    have hv : programBodyValidation (stampProgram cp (strTrim s) freshId) =
        some "name is required in request body" := by
      unfold programBodyValidation stampProgram
      simp [hname]
    rw [hv]
  · intro s env c freshId scan now hs hname
    rw [addChallengeHandler_reaches_validation s hs env c freshId scan now]
    have hv : challengeBodyValidation { c with id := freshId, createdBy := strTrim s } now =
        some "name is required in request body" := by
      unfold challengeBodyValidation
      simp [hname]
    rw [hv]

/-- A program body that is valid except that its name is whitespace-only. -/
def exProgramBlankName : CustomProgram :=
  { id := ""
    name := "   "
    description := "desc"
    public := false
    equipmentNeeded := ["bike"]
    numWeeks := 4
    workouts := [[⟨"w1", "45 min ride", "", 7, 2700, "", "i1", "Sam", 1600000000⟩]]
    createdBy := ""
    createdDate := "" }

/-- Concrete instances of the name rule: a whitespace-only program name and
an empty challenge name are both rejected with the name-required message. -/
theorem name_required_validation_witness :
    (addProgramHandler (some "u1") exEnv (some exProgramBlankName) "id-1" (.ok []) =
      ⟨400, .err 400 "name is required in request body", none⟩)
    ∧ (addChallengeHandler (some "u1") exEnv (some { exChallengeOk with name := "" }) "id-1" (.ok []) exNow =
      ⟨400, .err 400 "name is required in request body", none⟩) :=
  ⟨name_required_validation.1 "u1" exEnv exProgramBlankName "id-1" (.ok []) (by decide) (by decide),
   name_required_validation.2 "u1" exEnv { exChallengeOk with name := "" } "id-1" (.ok []) exNow
     (by decide) (by decide)⟩

/-- With a non-blank `UserID` header the `recommendClass` handler reaches
validation on the stamped record. -/
theorem recommendClassHandler_reaches_validation
    (s : String) (hs : strTrim s ≠ "") (env : Env) (r : Recommendation)
    (freshId : String) (scan : Except String (List RecItem)) :
    recommendClassHandler (some s) env (some r) freshId scan =
      (match recBodyValidation { r with id := freshId, createdBy := strTrim s } with
       | some msg => ⟨400, .err 400 msg, none⟩
       | none =>
         match recommendationValidation { r with id := freshId, createdBy := strTrim s }
             (encWorkout r.workout) scan with
         | (code, some msg) => ⟨code, .err code msg, none⟩
         | (_, none) => ⟨200, .recommendation { r with id := freshId, createdBy := strTrim s }, none⟩) := by
  unfold recommendClassHandler
  simp only [Option.isNone_some, Option.getD_some, Bool.false_or, beq_iff_eq]
  rw [if_neg hs]
  rfl

/-- C8: with a non-blank identity header, a Recommendation whose recipient
equals the creator identity taken from that header — which overrides any
client-supplied `createdBy`, since the record is quantified over arbitrary
`createdBy` values — is rejected with 400 and "Unable to recommend a class to
yourself"; a missing/empty recipient is rejected with 400 and the
recipient-required message. -/
theorem recommendation_self_rejected :
    ∀ (s : String) (env : Env) (r : Recommendation) (freshId : String)
      (scan : Except String (List RecItem)),
      strTrim s ≠ "" →
      ((r.recommendedFor = strTrim s →
        recommendClassHandler (some s) env (some r) freshId scan =
          ⟨400, .err 400 "Unable to recommend a class to yourself", none⟩)
       ∧ (r.recommendedFor = "" →
        recommendClassHandler (some s) env (some r) freshId scan =
          ⟨400, .err 400 "recommendedFor is required in request body", none⟩)) := by
  intro s env r freshId scan hs
  constructor
  · intro hself
    rw [recommendClassHandler_reaches_validation s hs env r freshId scan]
    have hv : recBodyValidation { r with id := freshId, createdBy := strTrim s } =
        some "Unable to recommend a class to yourself" := by
      unfold recBodyValidation
      have hne : r.recommendedFor ≠ "" := by rw [hself]; exact hs
      simp [hself, hne, hs]
    rw [hv]
  · intro hempty
    rw [recommendClassHandler_reaches_validation s hs env r freshId scan]
    have hv : recBodyValidation { r with id := freshId, createdBy := strTrim s } =
        some "recommendedFor is required in request body" := by
      unfold recBodyValidation
      simp [hempty]
    rw [hv]

/-- A concrete workout snapshot. -/
def exWorkout : Workout := ⟨"w1", "45 min ride", "", 7, 2700, "", "i1", "Sam", 1600000000⟩

/-- Concrete instances of the recipient rules, with a client-supplied
`createdBy` that the header identity overrides. -/
theorem recommendation_self_rejected_witness :
    (recommendClassHandler (some "u1") exEnv
        (some ⟨"", "someone-else", "u1", exWorkout⟩) "id-1" (.ok []) =
      ⟨400, .err 400 "Unable to recommend a class to yourself", none⟩)
    ∧ (recommendClassHandler (some "u1") exEnv
        (some ⟨"", "someone-else", "", exWorkout⟩) "id-1" (.ok []) =
      ⟨400, .err 400 "recommendedFor is required in request body", none⟩) :=
  ⟨(recommendation_self_rejected "u1" exEnv ⟨"", "someone-else", "u1", exWorkout⟩ "id-1"
      (.ok []) (by decide)).1 (by decide),
   (recommendation_self_rejected "u1" exEnv ⟨"", "someone-else", "", exWorkout⟩ "id-1"
      (.ok []) (by decide)).2 (by decide)⟩

/-- A concrete stored private program owned by `alice`. -/
def exPrivItem : ProgItem :=
  { Id := some "p1"
    Name := some "Secret plan"
    Description := some ""
    Public := some false
    EquipmentNeeded := some ["bike"]
    NumWeeks := some "4"
    Workouts := some (encWorkouts [[exWorkout]])
    CreatedBy := some "alice"
    CreatedDate := some "2021-01-01T00:00:00Z" }

/-- C3: in `services/getPrograms/getPrograms.go`, a get-by-id request answers
400 when no stored item has the id, 401 when the item exists but is private
and owned by someone other than the requester, and otherwise 200 with the
formatted record; the final conjunct evaluates the older revision of the same
handler at a private non-owned program and shows it answers 200 — its 401
guard compares pointers and can never fire, contradicting its own comment. -/
theorem getProgramByID_access_rules :
    (∀ (table : List ProgItem) (uid pid : String),
      getItemById table pid = none →
      getProgramByID table uid pid = ⟨400, .err 400 ("Unable to find program " ++ pid), none⟩)
    ∧ (∀ (table : List ProgItem) (uid pid : String) (it : ProgItem) (cb : String),
      getItemById table pid = some it → it.Public = some false → it.CreatedBy = some cb →
      cb ≠ uid →
      getProgramByID table uid pid = ⟨401, .err 401 "Unauthorized to view this program", none⟩)
    ∧ (∀ (table : List ProgItem) (uid pid : String) (it : ProgItem) (pub : Bool)
        (cb : String) (p : CustomProgram),
      getItemById table pid = some it → it.Public = some pub → it.CreatedBy = some cb →
      (pub = true ∨ cb = uid) → formatProgramOutput it = .ok p →
      getProgramByID table uid pid = ⟨200, .program p, none⟩)
    ∧ (getItemByIDOld [exPrivItem] "bob" "p1").status = 200 := by
  refine ⟨?_, ?_, ?_, by decide⟩
  · intro table uid pid hfind
    simp [getProgramByID, hfind]
  · intro table uid pid it cb hfind hpub hcb hne
    simp [getProgramByID, hfind, hpub, hcb, hne]
  · intro table uid pid it pub cb p hfind hpub hcb hacc hfmt
    rcases hacc with hpub' | hcb'
    · subst hpub'
      simp [getProgramByID, hfind, hpub, hcb, hfmt]
    · subst hcb'
      cases pub with
      | true => simp [getProgramByID, hfind, hpub, hcb, hfmt]
      | false => simp [getProgramByID, hfind, hpub, hcb, hfmt]

/-- The program record stored as `exPrivItem`, as `formatOutput` returns it. -/
def exPrivProgram : CustomProgram :=
  { id := "p1"
    name := "Secret plan"
    description := ""
    public := false
    equipmentNeeded := ["bike"]
    numWeeks := 4
    workouts := [[exWorkout]]
    createdBy := "alice"
    createdDate := "2021-01-01T00:00:00Z" }

/-- Concrete instances of the three get-by-id outcomes: absent id, private
program fetched by a non-owner, private program fetched by its owner. -/
theorem getProgramByID_access_rules_witness :
    (getProgramByID [] "bob" "p1" = ⟨400, .err 400 "Unable to find program p1", none⟩)
    ∧ (getProgramByID [exPrivItem] "bob" "p1" =
        ⟨401, .err 401 "Unauthorized to view this program", none⟩)
    ∧ (getProgramByID [exPrivItem] "alice" "p1" = ⟨200, .program exPrivProgram, none⟩) :=
  ⟨getProgramByID_access_rules.1 [] "bob" "p1" (by decide),
   getProgramByID_access_rules.2.1 [exPrivItem] "bob" "p1" exPrivItem "alice"
     (by decide) (by decide) (by decide) (by decide),
   getProgramByID_access_rules.2.2.1 [exPrivItem] "alice" "p1" exPrivItem false "alice"
     exPrivProgram (by decide) (by decide) (by decide) (Or.inr rfl) (by rfl)⟩

/-- C4 counterexample: in the older `getPrograms` revision the list-all path
answers 400 "Unable to find any programs" on a zero-item scan, not 200 with
an empty list. -/
theorem getAllItemsOld_empty_scan_400 :
    getAllItemsOld [] "u1" = ⟨400, .err 400 "Unable to find any programs", none⟩
    ∧ (getAllItemsOld [] "u1").status ≠ 200 := by
  decide

/-- C4 amended: the list-all paths of `getPrograms.go` and `getChallenges.go`
answer 200 with the empty JSON list body when the `public OR owner` filtered
scan returns zero items; the older `getPrograms` revision kept in the
repository instead answers 400 with "Unable to find any programs" there. -/
theorem empty_list_all_responses :
    (∀ (table : List ProgItem) (uid : String),
      table.filter (programListFilter uid) = [] →
      getAllPrograms table uid = ⟨200, .text "[]", none⟩)
    ∧ (∀ (table : List ChItem) (uid : String),
      table.filter (challengeListFilter uid) = [] →
      getAllChallenges table uid = ⟨200, .text "[]", none⟩)
    ∧ (∀ (table : List ProgItem) (uid : String),
      table.filter (programListFilter uid) = [] →
      getAllItemsOld table uid = ⟨400, .err 400 "Unable to find any programs", none⟩) := by
  refine ⟨?_, ?_, ?_⟩
  · intro table uid hf
    simp [getAllPrograms, hf]
  · intro table uid hf
    simp [getAllChallenges, hf]
  · intro table uid hf
    simp [getAllItemsOld, hf]

/-- Concrete zero-item scans for the three list-all paths. -/
theorem empty_list_all_responses_witness :
    (getAllPrograms [] "u1" = ⟨200, .text "[]", none⟩)
    ∧ (getAllChallenges [] "u1" = ⟨200, .text "[]", none⟩)
    ∧ (getAllItemsOld [] "u1" = ⟨400, .err 400 "Unable to find any programs", none⟩) :=
  ⟨empty_list_all_responses.1 [] "u1" rfl,
   empty_list_all_responses.2.1 [] "u1" rfl,
   empty_list_all_responses.2.2 [] "u1" rfl⟩

/-- A passing program validation pins down the field bounds. -/
theorem programValidation_none_shape {cp : CustomProgram}
    (h : programBodyValidation cp = none) :
    (cp.name == "") = false ∧ 1 ≤ cp.numWeeks ∧ 1 ≤ cp.workouts.length := by
  revert h
  unfold programBodyValidation
  cases h1 : (cp.name == "")
  case true => intro h; simp_all
  case false =>
  cases h2 : decide (cp.numWeeks < 1)
  case true => intro h; simp_all
  case false =>
  cases h3 : decide (cp.workouts.length < 1)
  case true => intro h; simp_all
  case false =>
    intro _
    refine ⟨rfl, ?_, ?_⟩
    · have := of_decide_eq_false h2; omega
    · have := of_decide_eq_false h3; omega

/-- C5 amended: a Program creation that passes validation, fetched back by
its generated id by its owner, returns exactly the stamped record with the
server-assigned creation timestamp: every field of the stored record — name,
description, public flag, equipment list, week count, nested workout
schedule, owner — survives serialization and deserialization unchanged; the
record differs from the raw creation input only in the server-assigned id,
the creation timestamp, the owner stamped from the identity header, and the
whitespace-trimming of name and description applied before storage. -/
theorem program_create_fetch_roundtrip
    (cp : CustomProgram) (uid freshId ts : String)
    (hvalid : programBodyValidation (stampProgram cp uid freshId) = none) :
    getProgramByID
        [programPutItem (stampProgram cp uid freshId)
          (encWorkouts (stampProgram cp uid freshId).workouts) ts]
        uid freshId =
      ⟨200, .program { stampProgram cp uid freshId with createdDate := ts }, none⟩ := by
  obtain ⟨-, hnw1, -⟩ := programValidation_none_shape hvalid
  have hnw : atoi (itoa cp.numWeeks) = some cp.numWeeks :=
    atoi_itoa (by simpa [stampProgram] using (by omega : (0 : Int) ≤ (stampProgram cp uid freshId).numWeeks))
  simp [getProgramByID, getItemById, programPutItem, stampProgram, formatProgramOutput,
    List.find?, hnw, decWorkouts_encWorkouts]

/-- The creation input of the round-trip counterexample: a valid program
body whose name carries surrounding whitespace and whose `createdBy` already
equals the identity header, isolating the name difference. -/
def exProgramPadded : CustomProgram :=
  { exProgramBlankName with name := " P1 ", createdBy := "u1" }

/-- C5 counterexample: this creation succeeds (validation passes), yet
fetching the created program back does not return the creation input with
only `id` and `createdDate` replaced — the stored name has been trimmed from
`" P1 "` to `"P1"`. -/
theorem program_roundtrip_not_exact :
    programBodyValidation (stampProgram exProgramPadded "u1" "id-1") = none
    ∧ getProgramByID
        [programPutItem (stampProgram exProgramPadded "u1" "id-1")
          (encWorkouts (stampProgram exProgramPadded "u1" "id-1").workouts) "2021-01-01T00:00:00Z"]
        "u1" "id-1" ≠
      ⟨200, .program { exProgramPadded with id := "id-1", createdDate := "2021-01-01T00:00:00Z" }, none⟩ := by
  decide

/-- The round trip evaluated at the padded-name creation input. -/
theorem program_create_fetch_roundtrip_witness :
    getProgramByID
        [programPutItem (stampProgram exProgramPadded "u1" "id-1")
          (encWorkouts (stampProgram exProgramPadded "u1" "id-1").workouts) "2021-01-01T00:00:00Z"]
        "u1" "id-1" =
      ⟨200, .program { stampProgram exProgramPadded "u1" "id-1" with
        createdDate := "2021-01-01T00:00:00Z" }, none⟩ :=
  program_create_fetch_roundtrip exProgramPadded "u1" "id-1" "2021-01-01T00:00:00Z" (by decide)
